import Mathlib

/-!
Verification of the retention/aggregation engine and the pattern and
recommendation analytics of the usd-buy-rate monitor.

The Go source is shallowly embedded: float64 rate arithmetic is modelled
over the rationals, timestamps are rational numbers of hours (in the fixed
CST reference zone used by the source), and date partitions are natural
numbers of days.  SQL tables become lists of rows; every repository query
used by the analysed code paths is translated directly from its SQL text.
Fallible store access is modelled with Except, and the retention command
takes failure oracles that say on which dates an aggregation statement
errors, mirroring the error branches of RetentionCommand.Run.
-/

/-- Sum of a list of rationals. -/
def qSum (xs : List ℚ) : ℚ := xs.foldl (· + ·) 0

/-- Arithmetic mean, as computed by the SQL AVG aggregate. -/
def qAvg (xs : List ℚ) : ℚ := qSum xs / xs.length

/-- Minimum of a nonempty list (SQL MIN); 0 on the empty list, which the
source never hits because aggregation no-ops on empty groups. -/
def listMin : List ℚ → ℚ
  | [] => 0
  | x :: rest => rest.foldl min x

/-- Maximum of a nonempty list (SQL MAX); 0 on the empty list. -/
def listMax : List ℚ → ℚ
  | [] => 0
  | x :: rest => rest.foldl max x

/-- One row of the exchange_rates table: date partition (days), hour of
day extracted by strftime from collected_at, and the rtc_bid value. -/
structure RawRow where
  date : ℕ
  hour : ℕ
  value : ℚ
deriving DecidableEq

/-- One row of the hourly_rates table, unique per (date, hour). -/
structure HourlyRow where
  date : ℕ
  hour : ℕ
  avgRate : ℚ
  minRate : ℚ
  maxRate : ℚ
  sampleCount : ℕ
deriving DecidableEq

/-- One row of the daily_rates table, unique per date. -/
structure DailyRow where
  date : ℕ
  avgRate : ℚ
  minRate : ℚ
  maxRate : ℚ
  peakRate : ℚ
  peakHour : ℕ
  volatility : ℚ
  sampleCount : ℕ
deriving DecidableEq

/-- The three tiers of the store. -/
structure StoreState where
  raw : List RawRow
  hourly : List HourlyRow
  daily : List DailyRow
deriving DecidableEq

/-- Repository.GetOldRawDataDates: SELECT DISTINCT date_partition FROM
exchange_rates WHERE date_partition is before (today minus retentionDays)
ORDER BY date_partition. -/
def GetOldRawDataDates (st : StoreState) (today retentionDays : ℕ) : List ℕ :=
  (List.range (today - retentionDays)).filter (fun d => st.raw.any (fun r => r.date == d))

/-- The hourly aggregate rows produced for one date: group the raw rows of
the date by hour and take AVG, MIN, MAX, COUNT per group (only hours that
actually have samples form groups). -/
def hourlyRowsFor (raw : List RawRow) (d : ℕ) : List HourlyRow :=
  (List.range 24).filterMap (fun h =>
    let xs := raw.filter (fun r => r.date == d && r.hour == h)
    if xs.isEmpty then none
    else
      let vals := xs.map RawRow.value
      some ⟨d, h, qAvg vals, listMin vals, listMax vals, xs.length⟩)

/-- Repository.AggregateToHourly: INSERT OR REPLACE the grouped hourly rows
for the date and report the number of affected rows. -/
def AggregateToHourly (st : StoreState) (d : ℕ) : StoreState × ℕ :=
  let rows := hourlyRowsFor st.raw d
  ({ st with
      hourly := st.hourly.filter
          (fun e => !(rows.any (fun n => n.date == e.date && n.hour == e.hour))) ++ rows },
    rows.length)

/-- Repository.AggregateToDaily: find the peak row of the date (highest
value, first match on ties), then INSERT OR REPLACE one daily row with
AVG, MIN, MAX, peak, volatility = MAX - MIN and COUNT.  A date with zero
raw rows is a silent no-op. -/
def AggregateToDaily (st : StoreState) (d : ℕ) : StoreState :=
  let xs := st.raw.filter (fun r => r.date == d)
  if xs.isEmpty then st
  else
    let vals := xs.map RawRow.value
    let peak := listMax vals
    let peakHour := ((xs.find? (fun r => r.value == peak)).map RawRow.hour).getD 0
    let row : DailyRow :=
      ⟨d, qAvg vals, listMin vals, listMax vals, peak, peakHour, listMax vals - listMin vals, xs.length⟩
    { st with daily := st.daily.filter (fun e => !(e.date == d)) ++ [row] }

/-- Repository.DeleteRawDataBefore: DELETE FROM exchange_rates WHERE
date_partition is before the cutoff; returns the number of deleted rows. -/
def DeleteRawDataBefore (st : StoreState) (cutoff : ℕ) : StoreState × ℕ :=
  let keep := st.raw.filter (fun r => !(decide (r.date < cutoff)))
  ({ st with raw := keep }, st.raw.length - keep.length)

/-- Repository.DeleteHourlyDataBefore: DELETE FROM hourly_rates WHERE
date_partition is before the cutoff; returns the number of deleted rows. -/
def DeleteHourlyDataBefore (st : StoreState) (cutoff : ℕ) : StoreState × ℕ :=
  let keep := st.hourly.filter (fun r => !(decide (r.date < cutoff)))
  ({ st with hourly := keep }, st.hourly.length - keep.length)

/-- Accumulator of the per-date loop of RetentionCommand.Run. -/
structure RunTotals where
  st : StoreState
  hourlyCreated : ℕ
  dailyCreated : ℕ
deriving DecidableEq

/-- Body of the per-date loop of RetentionCommand.Run.  Outside dry-run it
aggregates hourly then daily; a failing hourly aggregation logs and skips
the date (continue), a failing daily aggregation logs and skips after the
hourly rows were already written.  The failure oracles model on which
dates the corresponding repository statement returns an error. -/
def processDate (hourlyFails dailyFails : ℕ → Bool) (dryRun : Bool)
    (acc : RunTotals) (d : ℕ) : RunTotals :=
  if dryRun then acc
  else if hourlyFails d then acc
  else
    let p := AggregateToHourly acc.st d
    let acc1 : RunTotals := ⟨p.1, acc.hourlyCreated + p.2, acc.dailyCreated⟩
    if dailyFails d then acc1
    else ⟨AggregateToDaily acc1.st d, acc1.hourlyCreated, acc1.dailyCreated + 1⟩

/-- What RetentionCommand.Run reports to the caller. -/
structure RunReport where
  oldDates : List ℕ
  hourlyCreated : ℕ
  dailyCreated : ℕ
  rawDeleted : ℕ
  hourlyDeleted : ℕ
deriving DecidableEq

/-- RetentionCommand.Run: discover the dates with raw data older than the
raw retention horizon; loop over them (aggregation guarded by dry-run and
by the failure oracles); then, outside dry-run only, purge raw data older
than the raw cutoff and hourly data older than the hourly cutoff.  The
purges are cutoff-based and do not consult which dates aggregated
successfully, exactly as in the source. -/
def retentionRun (st : StoreState) (today rawRetentionDays hourlyRetentionDays : ℕ)
    (dryRun : Bool) (hourlyFails dailyFails : ℕ → Bool) : StoreState × RunReport :=
  let oldDates := GetOldRawDataDates st today rawRetentionDays
  if oldDates.isEmpty then (st, ⟨[], 0, 0, 0, 0⟩)
  else
    let t := oldDates.foldl (processDate hourlyFails dailyFails dryRun) ⟨st, 0, 0⟩
    if dryRun then (t.st, ⟨oldDates, 0, 0, 0, 0⟩)
    else
      let pr := DeleteRawDataBefore t.st (today - rawRetentionDays)
      let ph := DeleteHourlyDataBefore pr.1 (today - hourlyRetentionDays)
      (ph.1, ⟨oldDates, t.hourlyCreated, t.dailyCreated, pr.2, ph.2⟩)

/-- HourlyPattern as produced by Repository.GetHourlyPatterns. -/
structure HourlyPattern where
  hour : ℕ
  avgRate : ℚ
  minRate : ℚ
  maxRate : ℚ
  sampleCount : ℕ
  peakFreq : ℕ
deriving DecidableEq

/-- DayOfWeekPattern as produced by Repository.GetDayOfWeekPatterns. -/
structure DayOfWeekPattern where
  dayOfWeek : ℕ
  dayName : String
  avgRate : ℚ
  minRate : ℚ
  maxRate : ℚ
  avgRange : ℚ
  sampleDays : ℕ
deriving DecidableEq

/-- The lookback filter of the pattern queries: date_partition at or after
today minus the lookback days. -/
def inLookback (today days : ℕ) (r : RawRow) : Bool :=
  decide (today - days ≤ r.date)

/-- The daily_peaks CTE of getHourPeakFrequency: the maximal value among
the rows of one date inside the lookback window. -/
def dailyPeakRate (today days : ℕ) (raw : List RawRow) (d : ℕ) : ℚ :=
  listMax ((raw.filter (fun r => inLookback today days r && r.date == d)).map RawRow.value)

/-- Repository.getHourPeakFrequency: COUNT(DISTINCT date_partition) of the
dates in the window that have a sample at the given hour whose value
equals the peak of that day. -/
def hourPeakFrequency (today days : ℕ) (raw : List RawRow) (h : ℕ) : ℕ :=
  (((raw.filter (inLookback today days)).map RawRow.date).dedup.filter
    (fun d => raw.any (fun e =>
      inLookback today days e && e.date == d && e.hour == h
        && e.value == dailyPeakRate today days raw d))).length

/-- One group of the GROUP BY hour query of GetHourlyPatterns: the rows of
the window at this hour, or none when the hour has no samples. -/
def hourGroup (today days : ℕ) (raw : List RawRow) (h : ℕ) : Option HourlyPattern :=
  let xs := raw.filter (fun r => inLookback today days r && r.hour == h)
  if xs.isEmpty then none
  else
    let vals := xs.map RawRow.value
    some ⟨h, qAvg vals, listMin vals, listMax vals, xs.length, hourPeakFrequency today days raw h⟩

/-- Repository.GetHourlyPatterns: AVG, MIN, MAX, COUNT grouped by hour of
day over the lookback window, ordered by hour, plus the peak frequency of
each returned hour. -/
def GetHourlyPatterns (today days : ℕ) (raw : List RawRow) : List HourlyPattern :=
  (List.range 24).filterMap (hourGroup today days raw)

/-- One row of the exchange_rates table as the recommender consumes it:
the rtc_bid value and the collection time in rational hours (CST). -/
structure ExchangeRate where
  rtcBid : ℚ
  collectedAt : ℚ
deriving DecidableEq

/-- Recommender.calculatePercentile: the fraction of historical rates at
or below the current rate, scaled to 0-100 (inclusive comparison). -/
def calculatePercentile (currentRate : ℚ) (historicalRates : List ExchangeRate) : ℚ :=
  ((historicalRates.countP (fun r => decide (r.rtcBid ≤ currentRate)) : ℚ)
      / (historicalRates.length : ℚ)) * 100

/-- Hour of day (0-23) of a CST timestamp given in rational hours. -/
def hourOfTime (t : ℚ) : ℕ := (⌊t⌋).toNat % 24

/-- Weekday index (0-6) of a CST timestamp given in rational hours. -/
def dayOfWeekOf (t : ℚ) : ℕ := ((⌊t⌋).toNat / 24) % 7

/-- Weekday names used by buildHistoricalContext. -/
def dayNames : List String :=
  ["Sunday", "Monday", "Tuesday", "Wednesday", "Thursday", "Friday", "Saturday"]

/-- Recommender.HistoricalContext. -/
structure HistoricalContext where
  avgRate30Days : ℚ
  minRate30Days : ℚ
  maxRate30Days : ℚ
  stdDev30Days : ℚ
  todayDayOfWeek : String
  currentHour : ℕ
  hourlyAvgRate : ℚ
  dailyAvgRate : ℚ
deriving DecidableEq

/-- The pattern of the current hour, found by the first-match loop of
buildHistoricalContext (break on the first hour match). -/
def findPattern (patterns : List HourlyPattern) (h : ℕ) : Option HourlyPattern :=
  patterns.find? (fun p => p.hour == h)

/-- The pattern average of the current hour: 0 when the hour has no pattern,
as the loop of buildHistoricalContext leaves the zero value in place. -/
def currentHourAvg (patterns : List HourlyPattern) (h : ℕ) : ℚ :=
  ((findPattern patterns h).map HourlyPattern.avgRate).getD 0

/-- Recommender.buildHistoricalContext: mean, population standard
deviation by the two-pass formula, min and max of the 30-day rates, and
the current hour and weekday pattern averages.  The square root on the
variance has no exact rational counterpart and is taken as an explicit
function argument; no analysed claim depends on its values.  The min and
max folds of the source start from float sentinels and agree with listMin
and listMax on every nonempty input, and the length-at-least-100 guard of
GetRecommendation makes the input nonempty on every reachable call. -/
def buildHistoricalContext (rates : List ExchangeRate)
    (hourlyPatterns : List HourlyPattern) (dowPatterns : List DayOfWeekPattern)
    (now : ℚ) (sqrtQ : ℚ → ℚ) : HistoricalContext :=
  let vals := rates.map ExchangeRate.rtcBid
  let n : ℚ := rates.length
  let avg := qSum vals / n
  let variance := qSum (vals.map (fun v => v * v)) / n - avg * avg
  let currentHour := hourOfTime now
  let currentDOW := dayOfWeekOf now
  let dailyAvg := ((dowPatterns.find? (fun p => p.dayOfWeek == currentDOW)).map
      DayOfWeekPattern.avgRate).getD 0
  { avgRate30Days := avg
    minRate30Days := listMin vals
    maxRate30Days := listMax vals
    stdDev30Days := sqrtQ variance
    todayDayOfWeek := (dayNames.get? currentDOW).getD ""
    currentHour := currentHour
    hourlyAvgRate := currentHourAvg hourlyPatterns currentHour
    dailyAvgRate := dailyAvg }

/-- Prediction for one upcoming hour. -/
structure HourPrediction where
  hour : ℕ
  predictedRate : ℚ
  confidence : ℚ
deriving DecidableEq

/-- The business-hours gate of predictNextHours: the loop breaks when the
future hour is before 8 or at or after 22. -/
def businessHour (h : ℕ) : Bool :=
  decide (8 ≤ h) && decide (h < 22)

/-- One prediction of Recommender.predictNextHours: the 0.7/0.3/0.3 blend
of the pattern average of the hour with the trend-adjusted current rate, and a
confidence starting at 50, +20 for more than 100 samples, +15 for a
max-minus-min spread below one percent of the average, capped at 85. -/
def mkPrediction (pat : HourlyPattern) (h : ℕ) (currentRate hourlyAvgRate : ℚ) :
    HourPrediction :=
  let trendAdjustment := currentRate - hourlyAvgRate
  let predictedRate := pat.avgRate * (7/10) + (currentRate + trendAdjustment * (3/10)) * (3/10)
  let c1 : ℚ := 50
  let c2 := if 100 < pat.sampleCount then c1 + 20 else c1
  let c3 := if (pat.maxRate - pat.minRate) / pat.avgRate < 1/100 then c2 + 15 else c2
  let conf := if 85 < c3 then 85 else c3
  ⟨h, predictedRate, conf⟩

/-- Recommender.predictNextHours: for the next six hours, stopping at the
business-hours boundary, look up the pattern of the hour and skip hours without
one, and predict through mkPrediction. -/
def predictNextHours (currentHour : ℕ) (patterns : List HourlyPattern)
    (currentRate : ℚ) (histContext : HistoricalContext) : List HourPrediction :=
  (((List.range 6).map (fun i => (currentHour + i + 1) % 24)).takeWhile businessHour).filterMap
    (fun h => (findPattern patterns h).map
      (fun pat => mkPrediction pat h currentRate histContext.hourlyAvgRate))

/-- Recommender.TimeWindow, with the CST times as rational hours. -/
structure TimeWindow where
  startHour : ℕ
  endHour : ℕ
  startTime : ℚ
  endTime : ℚ
  expectedRate : ℚ
  probability : ℚ
deriving DecidableEq

/-- The best-prediction scan of findOptimalWindow: keep the first
prediction and replace it whenever a strictly higher rate appears. -/
def pickBest : List HourPrediction → Option HourPrediction
  | [] => none
  | p :: rest => some (rest.foldl (fun b q => if b.predictedRate < q.predictedRate then q else b) p)

/-- Recommender.findOptimalWindow: the hour with the highest predicted
rate, widened to a window ending at the next hour (clamped at the last
business hour), anchored on the current CST day, and rolled to the next
day when the start already passed and the current hour is at least 20. -/
def findOptimalWindow (now : ℚ) (predictions : List HourPrediction) : Option TimeWindow :=
  match pickBest predictions with
  | none => none
  | some best =>
    let startHour := best.hour
    let endHour0 := best.hour + 1
    let endHour := if 22 ≤ endHour0 then 21 else endHour0
    let dayStart : ℚ := 24 * (((⌊now⌋ / 24 : ℤ) : ℚ))
    let startTime0 := dayStart + startHour
    let endTime0 := dayStart + endHour + 59/60 + 59/3600
    let rolled := decide (startTime0 < now) && decide (20 ≤ hourOfTime now)
    let startTime := if rolled then startTime0 + 24 else startTime0
    let endTime := if rolled then endTime0 + 24 else endTime0
    some ⟨startHour, endHour, startTime, endTime, best.predictedRate, best.confidence⟩

/-- The recommended action (named Action in the source; Action is taken
by the library here). -/
inductive RecAction
  | exchangeNow
  | wait
  | neutral
deriving DecidableEq

/-- The confidence label of a recommendation. -/
inductive Confidence
  | veryHigh
  | high
  | medium
  | low
deriving DecidableEq

/-- Factor 1 of Recommender.determineAction: the percentile rank
contributes 40, 30, 15 or 0 points with a reasoning string. -/
def percentileFactor (percentile : ℚ) : ℚ × List String :=
  if 90 ≤ percentile then (40, ["Current rate is at a high percentile (excellent)"])
  else if 75 ≤ percentile then (30, ["Current rate is at a high percentile (good)"])
  else if 50 ≤ percentile then (15, ["Current rate is at an average percentile"])
  else (0, ["Current rate is at a below-average percentile"])

/-- Factor 2 of Recommender.determineAction: comparison of the current
rate to the pattern average of the current hour, evaluated only when that
average is positive; otherwise the factor is skipped entirely. -/
def hourlyFactor (currentRate hourlyAvgRate : ℚ) : ℚ × List String :=
  if 0 < hourlyAvgRate then
    let diff := currentRate - hourlyAvgRate
    let diffPct := diff / hourlyAvgRate * 100
    if 0 ≤ diff then
      if 1/2 < diffPct then (25, ["Rate is above hourly average"])
      else (15, ["Rate matches hourly average"])
    else (5, ["Rate is below hourly average"])
  else (0, [])

/-- Factor 3 of Recommender.determineAction: quality of the optimal
window.  35 when the window start is now or passed, 5 when it starts
within 3 hours with an expected gain above 0.3 percent, 20 when it starts
within 3 hours with a smaller gain, 10 when it is further out; when no
window was computed the guard skips the factor and it contributes
nothing. -/
def windowFactor (currentRate : ℚ) (optimalWindow : Option TimeWindow) (now : ℚ) :
    ℚ × List String :=
  match optimalWindow with
  | none => (0, [])
  | some ow =>
    let hoursUntilOptimal := ow.startTime - now
    if hoursUntilOptimal ≤ 0 then (35, ["Currently in predicted optimal time window"])
    else if hoursUntilOptimal ≤ 3 then
      let expectedGainPct := (ow.expectedRate - currentRate) / currentRate * 100
      if 3/10 < expectedGainPct then (5, ["Better rate predicted soon"])
      else (20, ["Marginal improvement expected"])
    else (10, ["No significant improvement predicted in near term"])

/-- Recommender.determineAction: sum the three factors, concatenate their
reasoning strings in order, and derive the action and confidence label
from the score thresholds. -/
def determineAction (currentRate percentile : ℚ) (optimalWindow : Option TimeWindow)
    (hourlyAvgRate : ℚ) (now : ℚ) : RecAction × Confidence × ℚ × List String :=
  let f1 := percentileFactor percentile
  let f2 := hourlyFactor currentRate hourlyAvgRate
  let f3 := windowFactor currentRate optimalWindow now
  let score := f1.1 + f2.1 + f3.1
  let reasons := f1.2 ++ f2.2 ++ f3.2
  let action :=
    if 75 ≤ score then RecAction.exchangeNow
    else if 40 ≤ score then RecAction.neutral
    else RecAction.wait
  let confidence :=
    if 75 ≤ score then
      if 90 ≤ score then Confidence.veryHigh
      else if 80 ≤ score then Confidence.high
      else Confidence.medium
    else if 40 ≤ score then Confidence.medium
    else if score < 25 then Confidence.high
    else Confidence.medium
  (action, confidence, score, reasons)

/-- Recommender.calculateRiskReward: gain and loss in converted units and
a volatility-based risk label, computed only when a window exists and its
expected rate exceeds the current rate; otherwise zero gain, zero loss
and the LOW default. -/
def calculateRiskReward (currentRate amount : ℚ) (optimalWindow : Option TimeWindow)
    (histContext : HistoricalContext) : ℚ × ℚ × String :=
  let currentUSD := amount / currentRate
  match optimalWindow with
  | some ow =>
    if currentRate < ow.expectedRate then
      let potentialGain := amount / ow.expectedRate - currentUSD
      let potentialLoss := currentUSD - amount / histContext.minRate30Days
      let volatility := histContext.stdDev30Days / histContext.avgRate30Days
      let riskLevel :=
        if 2/100 < volatility then "HIGH"
        else if 1/100 < volatility then "MEDIUM"
        else "LOW"
      (potentialGain, potentialLoss, riskLevel)
    else (0, 0, "LOW")
  | none => (0, 0, "LOW")

/-- Recommender.determineNextCheckTime, in rational hours. -/
def determineNextCheckTime (now : ℚ) (action : RecAction)
    (optimalWindow : Option TimeWindow) : ℚ :=
  match action with
  | RecAction.exchangeNow => now + 1/2
  | RecAction.wait =>
    match optimalWindow with
    | some ow => ow.startTime - 1/2
    | none => now + 1
  | RecAction.neutral => now + 1

/-- The error taxonomy of GetRecommendation. -/
inductive RecError
  | storeError (op : String)
  | noData
  | insufficientData (sampleCount : ℕ)
deriving DecidableEq

/-- The repository answers GetRecommendation consumes, each one fallible:
the latest rate, the trailing-30-day rates, and the two pattern lists. -/
structure RepoView where
  latestRate : Except String (Option ExchangeRate)
  ratesLast30Days : Except String (List ExchangeRate)
  hourlyPatterns : Except String (List HourlyPattern)
  dowPatterns : Except String (List DayOfWeekPattern)

/-- Recommender.Recommendation. -/
structure Recommendation where
  action : RecAction
  confidence : Confidence
  confidenceScore : ℚ
  currentRate : ℚ
  percentileRank : ℚ
  amount : ℚ
  usdAmount : ℚ
  predictedNextHours : List HourPrediction
  optimalWindow : Option TimeWindow
  reasoning : List String
  potentialGain : ℚ
  potentialLoss : ℚ
  riskLevel : String
  nextCheckTime : ℚ
  historicalStats : HistoricalContext

/-- Recommender.GetRecommendation: latest rate (store failure propagates,
a missing row is the no-data error), the 30-day history with the
at-least-100-samples guard, percentile, pattern queries, historical
context, predictions, optimal window, action scoring, risk and reward,
and the next check time. -/
def GetRecommendation (view : RepoView) (amount : ℚ) (now : ℚ)
    (sqrtQ : ℚ → ℚ) : Except RecError Recommendation :=
  match view.latestRate with
  | Except.error e => Except.error (RecError.storeError e)
  | Except.ok none => Except.error RecError.noData
  | Except.ok (some latest) =>
    match view.ratesLast30Days with
    | Except.error e => Except.error (RecError.storeError e)
    | Except.ok historicalRates =>
      if historicalRates.length < 100 then
        Except.error (RecError.insufficientData historicalRates.length)
      else
        let currentRate := latest.rtcBid
        let percentile := calculatePercentile currentRate historicalRates
        match view.hourlyPatterns with
        | Except.error e => Except.error (RecError.storeError e)
        | Except.ok hourlyPatterns =>
          match view.dowPatterns with
          | Except.error e => Except.error (RecError.storeError e)
          | Except.ok dowPatterns =>
            let histContext :=
              buildHistoricalContext historicalRates hourlyPatterns dowPatterns now sqrtQ
            let predictions :=
              predictNextHours (hourOfTime now) hourlyPatterns currentRate histContext
            let optimalWindow := findOptimalWindow now predictions
            let dec := determineAction currentRate percentile optimalWindow
              histContext.hourlyAvgRate now
            let rr := calculateRiskReward currentRate amount optimalWindow histContext
            Except.ok
              { action := dec.1
                confidence := dec.2.1
                confidenceScore := dec.2.2.1
                currentRate := currentRate
                percentileRank := percentile
                amount := amount
                usdAmount := amount / currentRate
                predictedNextHours := predictions
                optimalWindow := optimalWindow
                reasoning := dec.2.2.2
                potentialGain := rr.1
                potentialLoss := rr.2.1
                riskLevel := rr.2.2
                nextCheckTime := determineNextCheckTime now dec.1 optimalWindow
                historicalStats := histContext }

/-- Recommender.GetPercentileRank: propagate a store failure, report the
no-data error on an empty window, and otherwise rank the rate against the
window through calculatePercentile. -/
def GetPercentileRank (queryResult : Except String (List ExchangeRate)) (rate : ℚ) :
    Except String ℚ :=
  match queryResult with
  | Except.error e => Except.error e
  | Except.ok rates =>
    if rates.length = 0 then Except.error "no historical data available"
    else Except.ok (calculatePercentile rate rates)

theorem foldl_processDate_dryRun (hf df : ℕ → Bool) (l : List ℕ) (acc : RunTotals) :
    l.foldl (processDate hf df true) acc = acc := by
  induction l generalizing acc with
  | nil => rfl
  | cons d rest ih => simp [List.foldl_cons, processDate, ih]

theorem isEmpty_filter_eq {α : Type} (l : List α) (p : α → Bool) :
    (l.filter p).isEmpty = !(l.any p) := by
  induction l with
  | nil => rfl
  | cons a t ih => cases hpa : p a <;> simp [List.filter_cons, List.any_cons, hpa, ih]

theorem hourGroup_hour (today days : ℕ) (raw : List RawRow) (h : ℕ) (p : HourlyPattern)
    (hp : hourGroup today days raw h = some p) : p.hour = h := by
  cases hE : (raw.filter (fun r => inLookback today days r && r.hour == h)).isEmpty
  · simp only [hourGroup, hE, Bool.false_eq_true, if_false, Option.some.injEq] at hp
    subst hp
    rfl
  · simp [hourGroup, hE] at hp

theorem map_hour_filterMap_hourGroup (today days : ℕ) (raw : List RawRow) (l : List ℕ) :
    (l.filterMap (hourGroup today days raw)).map HourlyPattern.hour
      = l.filter (fun h => raw.any (fun r => inLookback today days r && r.hour == h)) := by
  induction l with
  | nil => rfl
  | cons h t ih =>
    rw [List.filterMap_cons]
    cases hA : raw.any (fun r => inLookback today days r && r.hour == h) with
    | false =>
      have hG : hourGroup today days raw h = none := by
        simp [hourGroup, isEmpty_filter_eq, hA]
      rw [hG]
      simp [List.filter_cons, hA, ih]
    | true =>
      obtain ⟨p, hG⟩ : ∃ p, hourGroup today days raw h = some p := by
        simp [hourGroup, isEmpty_filter_eq, hA]
      rw [hG]
      simp [List.filter_cons, hA, List.map_cons, hourGroup_hour today days raw h p hG, ih]

/-- C1: the raw-data purge of a retention run deletes the raw samples of a
date whose hourly aggregation failed, leaving that date with no hourly
aggregate row.  Concrete run: one old date (0) with two raw samples, the
hourly aggregation of date 0 fails, dryRun is false; after the run the
whole store is empty, so the date lost its raw rows without gaining an
hourly row — the purge is cutoff-based and ignores aggregation success. -/
theorem retention_purges_unaggregated_date :
    (retentionRun ⟨[⟨0, 9, 7⟩, ⟨0, 10, 8⟩], [], []⟩ 40 30 35 false
        (fun d => d == 0) (fun _ => false)).1 = ⟨[], [], []⟩ ∧
    ((⟨[⟨0, 9, 7⟩, ⟨0, 10, 8⟩], [], []⟩ : StoreState).raw.filter
        (fun r => r.date == 0)) ≠ [] := by
  constructor
  · norm_num [retentionRun, GetOldRawDataDates, processDate, DeleteRawDataBefore,
      DeleteHourlyDataBefore, List.range_succ]
  · simp

/-- C3: a dry run of the retention command mutates no table — the store
after the run equals the store before it, for every store, horizon pair
and failure oracle — and its report still carries the discovered old
dates, so a non-empty discovery yields a non-empty report. -/
theorem dryRun_mutates_nothing (st : StoreState) (today rawD hourlyD : ℕ)
    (hf df : ℕ → Bool) :
    (retentionRun st today rawD hourlyD true hf df).1 = st ∧
    (retentionRun st today rawD hourlyD true hf df).2.oldDates
      = GetOldRawDataDates st today rawD := by
  unfold retentionRun
  cases hO : (GetOldRawDataDates st today rawD).isEmpty
  · simp [hO, foldl_processDate_dryRun]
  · simp [hO, List.isEmpty_iff.mp hO]

/-- C7: GetHourlyPatterns returns, ordered by hour, exactly one entry for
each hour of 0-23 that has at least one sample in the lookback window and
no entry for any hour without samples: the hours of the result list are
precisely the sampled hours of 0-23 in increasing order, with no
zero-filled placeholders. -/
theorem hourly_patterns_exactly_sampled_hours (today days : ℕ) (raw : List RawRow) :
    (GetHourlyPatterns today days raw).map HourlyPattern.hour
      = (List.range 24).filter
          (fun h => raw.any (fun r => inLookback today days r && r.hour == h)) := by
  unfold GetHourlyPatterns
  exact map_hour_filterMap_hourGroup today days raw (List.range 24)

/-- C6: for a fixed non-empty historical sample set, the percentile rank
computed by calculatePercentile is monotonically non-decreasing in the
queried rate. -/
theorem percentile_monotone (historicalRates : List ExchangeRate)
    (hne : historicalRates ≠ []) (r1 r2 : ℚ) (h12 : r1 ≤ r2) :
    calculatePercentile r1 historicalRates ≤ calculatePercentile r2 historicalRates := by
  unfold calculatePercentile
  have hlen : (0:ℚ) < (historicalRates.length : ℚ) := by
    exact_mod_cast List.length_pos.mpr hne
  have hcount : historicalRates.countP (fun r => decide (r.rtcBid ≤ r1))
      ≤ historicalRates.countP (fun r => decide (r.rtcBid ≤ r2)) := by
    apply List.countP_mono_left
    intro a _ ha
    simp only [decide_eq_true_eq] at ha ⊢
    exact le_trans ha h12
  exact mul_le_mul_of_nonneg_right
    ((div_le_div_iff_of_pos_right hlen).mpr (by exact_mod_cast hcount)) (by norm_num)

/-- C6 witness: a one-sample history at rate 7 with queried rates 6 and 7. -/
theorem percentile_monotone_witness :
    ([(⟨7, 0⟩ : ExchangeRate)] ≠ []) ∧ ((6:ℚ) ≤ 7) ∧
    calculatePercentile 6 [⟨7, 0⟩] ≤ calculatePercentile 7 [⟨7, 0⟩] :=
  ⟨by simp, by norm_num, percentile_monotone [⟨7, 0⟩] (by simp) 6 7 (by norm_num)⟩

/-- C2 counterexample: when no optimal window was computed the window
factor of the action scoring contributes 0 points, not the 10 the claim
states; with the other factors also at zero the whole score is 0. -/
theorem window_absent_contributes_zero :
    (windowFactor 7 none 0).1 = 0 ∧ ¬ (windowFactor 7 none 0).1 = 10 ∧
    (determineAction 7 0 none 0 0).2.2.1 = 0 := by
  refine ⟨rfl, by norm_num [windowFactor], ?_⟩
  norm_num [determineAction, percentileFactor, hourlyFactor, windowFactor]

/-- C2 amended: the score of determineAction is the sum of the three
factors, and the window factor contributes 35 points when the window
start is now or already passed, 5 points when it starts within 3 hours
with predicted gain above 0.3 percent, 20 points when it starts within 3
hours with gain at most 0.3 percent, 10 points when it is further out,
and 0 points (not 10) when no optimal window was computed. -/
theorem window_factor_amended (c now pct hourlyAvg : ℚ) (w : Option TimeWindow)
    (ow : TimeWindow) :
    ((determineAction c pct w hourlyAvg now).2.2.1
        = (percentileFactor pct).1 + (hourlyFactor c hourlyAvg).1
          + (windowFactor c w now).1)
    ∧ (windowFactor c none now = (0, []))
    ∧ (ow.startTime - now ≤ 0 → (windowFactor c (some ow) now).1 = 35)
    ∧ (0 < ow.startTime - now → ow.startTime - now ≤ 3 →
        3/10 < (ow.expectedRate - c) / c * 100 → (windowFactor c (some ow) now).1 = 5)
    ∧ (0 < ow.startTime - now → ow.startTime - now ≤ 3 →
        (ow.expectedRate - c) / c * 100 ≤ 3/10 → (windowFactor c (some ow) now).1 = 20)
    ∧ (3 < ow.startTime - now → (windowFactor c (some ow) now).1 = 10) := by
  refine ⟨rfl, rfl, ?_, ?_, ?_, ?_⟩
  · intro h
    simp only [windowFactor]
    rw [if_pos h]
  · intro h1 h2 h3
    simp only [windowFactor]
    rw [if_neg (by linarith), if_pos h2, if_pos h3]
  · intro h1 h2 h3
    simp only [windowFactor]
    rw [if_neg (by linarith), if_pos h2, if_neg (not_lt.mpr h3)]
  · intro h
    simp only [windowFactor]
    rw [if_neg (by linarith), if_neg (by linarith)]

/-- C2 witness: a window whose start time equals now awards 35 points. -/
theorem window_factor_amended_witness :
    ((⟨10, 11, 0, 1, 7, 50⟩ : TimeWindow).startTime - 0 ≤ 0) ∧
    (windowFactor 7 (some ⟨10, 11, 0, 1, 7, 50⟩) 0).1 = 35 :=
  ⟨by norm_num,
    (window_factor_amended 7 0 0 0 none ⟨10, 11, 0, 1, 7, 50⟩).2.2.1 (by norm_num)⟩

/-- C9: when the current hour has no hourly pattern the hourly-average
factor of determineAction is skipped entirely: the current-hour pattern
average is 0, the factor contributes 0 points and emits no reasoning
string, and the total score is the sum of the percentile factor and the
window factor alone. -/
theorem missing_hour_pattern_skips_hourly_factor (patterns : List HourlyPattern)
    (h : ℕ) (hp : findPattern patterns h = none) (c pct now : ℚ)
    (w : Option TimeWindow) :
    currentHourAvg patterns h = 0
    ∧ hourlyFactor c (currentHourAvg patterns h) = (0, [])
    ∧ (determineAction c pct w (currentHourAvg patterns h) now).2.2.1
        = (percentileFactor pct).1 + (windowFactor c w now).1
    ∧ (determineAction c pct w (currentHourAvg patterns h) now).2.2.2
        = (percentileFactor pct).2 ++ (windowFactor c w now).2 := by
  have havg : currentHourAvg patterns h = 0 := by simp [currentHourAvg, hp]
  have hf : hourlyFactor c (currentHourAvg patterns h) = (0, []) := by
    rw [havg]
    simp [hourlyFactor]
  refine ⟨havg, hf, ?_, ?_⟩
  · show (percentileFactor pct).1 + (hourlyFactor c (currentHourAvg patterns h)).1
        + (windowFactor c w now).1 = _
    rw [hf]
    ring
  · show (percentileFactor pct).2 ++ (hourlyFactor c (currentHourAvg patterns h)).2
        ++ (windowFactor c w now).2 = _
    rw [hf]
    simp

/-- C9 witness: an empty pattern list has no pattern for hour 10, and the
score splits into the percentile and window factors. -/
theorem missing_hour_pattern_witness :
    findPattern [] 10 = none ∧
    (determineAction 7 0 none (currentHourAvg [] 10) 0).2.2.1
      = (percentileFactor 0).1 + (windowFactor 7 none 0).1 :=
  ⟨rfl, (missing_hour_pattern_skips_hourly_factor [] 10 rfl 7 0 0 none).2.2.1⟩

/-- C8: calculateRiskReward returns zero gain, zero loss and the LOW risk
label whenever no optimal window exists or the expected rate of the window does
not exceed the current rate, for every historical context — the
volatility thresholds are only evaluated inside the upside branch, so a
high-volatility history with no upside window is still LOW. -/
theorem risk_reward_low_without_upside (c a : ℚ) (ctx : HistoricalContext) :
    calculateRiskReward c a none ctx = (0, 0, "LOW") ∧
    ∀ ow : TimeWindow, ow.expectedRate ≤ c →
      calculateRiskReward c a (some ow) ctx = (0, 0, "LOW") := by
  refine ⟨rfl, fun ow how => ?_⟩
  simp only [calculateRiskReward]
  rw [if_neg (not_lt.mpr how)]

/-- C8 witness: a context with stddev 1 over mean 7 (volatility above the
0.02 HIGH threshold) and a window with no upside still comes out LOW. -/
theorem risk_reward_witness :
    ((⟨10, 11, 12, 13, 7, 50⟩ : TimeWindow).expectedRate ≤ 7) ∧
    ((2:ℚ)/100 < 1/7) ∧
    calculateRiskReward 7 1000 (some ⟨10, 11, 12, 13, 7, 50⟩)
        ⟨7, 6, 8, 1, "Monday", 10, 7, 7⟩ = (0, 0, "LOW") :=
  ⟨by norm_num, by norm_num,
    (risk_reward_low_without_upside 7 1000 ⟨7, 6, 8, 1, "Monday", 10, 7, 7⟩).2
      ⟨10, 11, 12, 13, 7, 50⟩ (by norm_num)⟩

/-- C10: GetPercentileRank fails exactly when the store query fails or the
trailing window is empty: a failing query propagates its error, an empty
window is the no-data error, a successful query on a non-empty window
always returns Ok with the percentile of that window (so an error occurs
only in the first two cases), and every Ok value comes from a non-empty
set and lies in the closed interval from 0 to 100. -/
theorem percentile_rank_error_iff_and_bounds (q : Except String (List ExchangeRate))
    (rate : ℚ) :
    (∀ e, q = Except.error e → GetPercentileRank q rate = Except.error e) ∧
    (∀ rates, q = Except.ok rates → rates.length = 0 →
        GetPercentileRank q rate = Except.error "no historical data available") ∧
    (∀ rates, q = Except.ok rates → rates ≠ [] →
        GetPercentileRank q rate = Except.ok (calculatePercentile rate rates)) ∧
    (∀ v, GetPercentileRank q rate = Except.ok v →
        ∃ rates, q = Except.ok rates ∧ rates ≠ [] ∧
          v = calculatePercentile rate rates ∧ 0 ≤ v ∧ v ≤ 100) := by
  refine ⟨?_, ?_, ?_, ?_⟩
  · rintro e rfl
    rfl
  · rintro rates rfl h0
    simp [GetPercentileRank, h0]
  · rintro rates rfl hne
    have h0 : ¬ rates.length = 0 := fun h => hne (List.length_eq_zero.mp h)
    simp [GetPercentileRank, h0]
  · intro v hv
    cases hq : q with
    | error e =>
      rw [hq] at hv
      exact Except.noConfusion hv
    | ok rates =>
      rw [hq] at hv
      by_cases h0 : rates.length = 0
      · simp [GetPercentileRank, h0] at hv
      · have hne : rates ≠ [] := by
          intro h
          exact h0 (by simp [h])
        have hv' : v = calculatePercentile rate rates := by
          simp only [GetPercentileRank, h0, if_false] at hv
          exact (Except.ok.inj hv).symm
        have hlen : (0:ℚ) < (rates.length : ℚ) := by
          exact_mod_cast List.length_pos.mpr hne
        refine ⟨rates, rfl, hne, hv', ?_, ?_⟩
        · rw [hv']
          unfold calculatePercentile
          positivity
        · rw [hv']
          unfold calculatePercentile
          have hc : ((rates.countP (fun r => decide (r.rtcBid ≤ rate))) : ℚ)
              ≤ (rates.length : ℚ) := by
            exact_mod_cast List.countP_le_length _
          calc ((rates.countP (fun r => decide (r.rtcBid ≤ rate))) : ℚ)
                / (rates.length : ℚ) * 100
              ≤ 1 * 100 := by
                exact mul_le_mul_of_nonneg_right
                  ((div_le_one hlen).mpr hc) (by norm_num)
            _ = 100 := one_mul 100

/-- C10 witness: a one-sample window succeeds, through the only-if
direction of the theorem, with a value inside 0-100. -/
theorem percentile_rank_witness :
    ∃ v, GetPercentileRank (Except.ok [(⟨7, 0⟩ : ExchangeRate)]) 7 = Except.ok v
      ∧ 0 ≤ v ∧ v ≤ 100 := by
  have h : GetPercentileRank (Except.ok [(⟨7, 0⟩ : ExchangeRate)]) 7
      = Except.ok (calculatePercentile 7 [(⟨7, 0⟩ : ExchangeRate)]) :=
    (percentile_rank_error_iff_and_bounds (Except.ok [(⟨7, 0⟩ : ExchangeRate)]) 7).2.2.1
      [(⟨7, 0⟩ : ExchangeRate)] rfl (by simp)
  obtain ⟨rates, _, _, _, h0, h100⟩ :=
    (percentile_rank_error_iff_and_bounds (Except.ok [(⟨7, 0⟩ : ExchangeRate)]) 7).2.2.2
      (calculatePercentile 7 [(⟨7, 0⟩ : ExchangeRate)]) h
  exact ⟨calculatePercentile 7 [(⟨7, 0⟩ : ExchangeRate)], h, h0, h100⟩

/-- C4: when the trailing-30-day history holds fewer than 100 samples and
a current sample exists, GetRecommendation returns the
insufficient-historical-data error carrying the sample count; and with
fewer than 100 samples it never returns a recommendation at all,
whatever the other query results are. -/
theorem insufficient_history_errors :
    (∀ (view : RepoView) (amount now : ℚ) (sqrtQ : ℚ → ℚ) (latest : ExchangeRate)
        (rates : List ExchangeRate),
        view.latestRate = Except.ok (some latest) →
        view.ratesLast30Days = Except.ok rates →
        rates.length < 100 →
        GetRecommendation view amount now sqrtQ
          = Except.error (RecError.insufficientData rates.length)) ∧
    (∀ (view : RepoView) (amount now : ℚ) (sqrtQ : ℚ → ℚ) (rates : List ExchangeRate)
        (rec : Recommendation),
        view.ratesLast30Days = Except.ok rates →
        rates.length < 100 →
        ¬ GetRecommendation view amount now sqrtQ = Except.ok rec) := by
  constructor
  · intro view amount now sqrtQ latest rates hl hr hlen
    unfold GetRecommendation
    rw [hl, hr]
    simp [hlen]
  · intro view amount now sqrtQ rates rec hr hlen
    unfold GetRecommendation
    cases hL : view.latestRate with
    | error e => simp
    | ok lo =>
      cases lo with
      | none => simp
      | some latest =>
        rw [hr]
        simp [hlen]

/-- C4 witness: a history of exactly 99 samples yields the
insufficient-data error. -/
theorem insufficient_history_witness :
    (List.replicate 99 (⟨7, 0⟩ : ExchangeRate)).length < 100 ∧
    GetRecommendation
        ⟨Except.ok (some ⟨7, 0⟩), Except.ok (List.replicate 99 ⟨7, 0⟩),
          Except.ok [], Except.ok []⟩ 1000 0 (fun _ => 0)
      = Except.error (RecError.insufficientData 99) := by
  constructor
  · simp
  · have h := insufficient_history_errors.1
      ⟨Except.ok (some ⟨7, 0⟩), Except.ok (List.replicate 99 ⟨7, 0⟩),
        Except.ok [], Except.ok []⟩
      1000 0 (fun _ => 0) ⟨7, 0⟩ (List.replicate 99 ⟨7, 0⟩) rfl rfl (by simp)
    simpa using h

/-- C5: every prediction emitted by predictNextHours carries exactly the
fixed blend 0.7 times the pattern average of the hour plus 0.3 times the
current rate adjusted by 0.3 of the gap between the current rate and the
pattern average of the current hour. -/
theorem prediction_formula (currentHour : ℕ) (patterns : List HourlyPattern)
    (currentRate : ℚ) (ctx : HistoricalContext) (p : HourPrediction)
    (hp : p ∈ predictNextHours currentHour patterns currentRate ctx) :
    ∃ pat, findPattern patterns p.hour = some pat ∧
      p.predictedRate
        = 7/10 * pat.avgRate
          + 3/10 * (currentRate + 3/10 * (currentRate - ctx.hourlyAvgRate)) := by
  unfold predictNextHours at hp
  obtain ⟨h, hmem, hsome⟩ := List.mem_filterMap.mp hp
  obtain ⟨pat, hfind, hmk⟩ := Option.map_eq_some'.mp hsome
  refine ⟨pat, ?_, ?_⟩
  · rw [← hmk]
    exact hfind
  · rw [← hmk]
    show pat.avgRate * (7/10)
        + (currentRate + (currentRate - ctx.hourlyAvgRate) * (3/10)) * (3/10) = _
    ring

/-- C5 witness: with a single hour-10 pattern of average 7, current hour
9, current rate 7 and current-hour average 7, the emitted prediction for
hour 10 is exactly the blend, here 7. -/
theorem prediction_formula_witness :
    ((⟨10, 7, 65⟩ : HourPrediction)
        ∈ predictNextHours 9 [⟨10, 7, 7, 7, 50, 0⟩] 7 ⟨7, 7, 7, 0, "Monday", 9, 7, 7⟩) ∧
    ∃ pat, findPattern [(⟨10, 7, 7, 7, 50, 0⟩ : HourlyPattern)] 10 = some pat ∧
      (7:ℚ) = 7/10 * pat.avgRate + 3/10 * (7 + 3/10 * (7 - 7)) := by
  have hmem : (⟨10, 7, 65⟩ : HourPrediction)
      ∈ predictNextHours 9 [⟨10, 7, 7, 7, 50, 0⟩] 7 ⟨7, 7, 7, 0, "Monday", 9, 7, 7⟩ := by
    norm_num [predictNextHours, mkPrediction, findPattern, businessHour,
      List.range_succ, List.takeWhile, List.filterMap, List.find?]
  exact ⟨hmem, prediction_formula 9 [⟨10, 7, 7, 7, 50, 0⟩] 7
    ⟨7, 7, 7, 0, "Monday", 9, 7, 7⟩ ⟨10, 7, 65⟩ hmem⟩
